import Mathlib

/-!
Verification of `repo_to_text.py`, a tool that flattens a directory tree into a
single text file.  The Python source is embedded shallowly: pure functions
become Lean functions, the filesystem is modelled by an explicit snapshot
(`Entry` trees for traversal, `FileData` for per-path syscall results), and
fallible operations return `Option`.  Machine integers are `Nat`/`Int`
(Python integers are unbounded, so no wrap-around modelling is needed).
-/

namespace RepoToText

/-! ## Configuration constants (source lines 45-101) -/

/-- `DEFAULT_IGNORED_DIRS` from the source (a Python set; modelled as a list,
only membership is ever used). -/
def DEFAULT_IGNORED_DIRS : List String :=
  [".git", ".hg", ".svn", ".bzr",
   "node_modules", "__pycache__", ".pytest_cache", ".mypy_cache",
   "venv", ".venv", "env", ".env", "ENV",
   "dist", "build", "out", "target", "coverage", "site-packages",
   ".idea", ".vscode", ".DS_Store"]

/-- `ALWAYS_SKIP_EXTS` from the source. -/
def ALWAYS_SKIP_EXTS : List String :=
  [".png", ".jpg", ".jpeg", ".gif", ".bmp", ".tiff", ".tif", ".webp", ".svgz",
   ".mp3", ".wav", ".flac", ".ogg", ".mp4", ".mkv", ".avi", ".mov", ".webm",
   ".zip", ".tar", ".gz", ".tgz", ".bz2", ".xz", ".7z", ".rar",
   ".exe", ".dll", ".so", ".dylib", ".class", ".o", ".a", ".bin", ".wasm",
   ".pdf"]

/-- `PREFER_TEXT_EXTS` from the source. -/
def PREFER_TEXT_EXTS : List String :=
  [".py", ".pyi", ".pyx", ".pxd",
   ".js", ".jsx", ".ts", ".tsx",
   ".java", ".kt", ".kts", ".scala",
   ".rb", ".go", ".rs", ".c", ".h", ".cpp", ".hpp", ".cc", ".hh", ".m", ".mm",
   ".cs", ".vb", ".fs", ".fsx",
   ".php", ".r", ".jl", ".pl", ".lua", ".sh", ".bash", ".zsh", ".fish",
   ".ps1", ".psm1", ".psd1", ".sql", ".yaml", ".yml", ".json", ".jsonc",
   ".toml", ".ini", ".cfg", ".conf", ".env", ".properties",
   ".html", ".htm", ".xml", ".svg", ".xhtml", ".xsd",
   ".md", ".rst", ".txt", ".csv", ".tsv", ".log", ".tex",
   ".gradle", ".sbt", ".cabal", ".nim", ".hs"]

/-- `DOCX_EXTS` from the source. -/
def DOCX_EXTS : List String := [".docx"]

/-- `PDF_EXTS` from the source. -/
def PDF_EXTS : List String := [".pdf"]

/-- `EXT_TO_LANG` from the source (a Python dict; modelled as an association
list with distinct keys, only `.get` is ever used). -/
def EXT_TO_LANG : List (String × String) :=
  [(".py", "python"), (".js", "javascript"), (".jsx", "jsx"), (".ts", "typescript"),
   (".tsx", "tsx"), (".java", "java"), (".kt", "kotlin"), (".kts", "kotlin"),
   (".scala", "scala"), (".rb", "ruby"), (".go", "go"), (".rs", "rust"),
   (".c", "c"), (".h", "c"), (".cpp", "cpp"), (".hpp", "cpp"), (".cc", "cpp"), (".hh", "cpp"),
   (".m", "objective-c"), (".mm", "objective-cpp"),
   (".cs", "csharp"), (".vb", "vbnet"), (".fs", "fsharp"), (".fsx", "fsharp"),
   (".php", "php"), (".r", "r"), (".jl", "julia"), (".pl", "perl"), (".lua", "lua"),
   (".sh", "bash"), (".bash", "bash"), (".zsh", "zsh"), (".fish", "fish"),
   (".ps1", "powershell"), (".psm1", "powershell"), (".psd1", "powershell"),
   (".sql", "sql"), (".yaml", "yaml"), (".yml", "yaml"), (".json", "json"),
   (".toml", "toml"), (".ini", "ini"), (".cfg", "ini"), (".conf", "ini"),
   (".html", "html"), (".htm", "html"), (".xml", "xml"), (".svg", "xml"),
   (".md", "markdown"), (".rst", "rst"), (".txt", "text"), (".csv", "csv"), (".tsv", "tsv"),
   (".tex", "tex")]

/-! ## Binary sniffer (source lines 105-132, `is_probably_binary`) -/

/-- The byte whitelist `set(b"\t\n\r\f\b\x0c")` from source line 116:
tab 9, newline 10, carriage return 13, form feed 12, backspace 8 (the
source literal lists form feed twice, which is harmless in a set). -/
def text_whitelist : List Nat := [9, 10, 13, 12, 8, 12]

/-- One iteration of the counting loop of `is_probably_binary` (source lines
118-130): a byte is *suspicious* unless it is printable ASCII (32-126) or in
the whitelist.  The explicit `127 <= b <= 159` branch of the source also
counts the byte as suspicious, so it is folded into the catch-all. -/
def is_suspicious_byte (b : Nat) : Bool :=
  if 32 ≤ b ∧ b ≤ 126 then false
  else if b ∈ text_whitelist then false
  else true

/-- Number of suspicious bytes accumulated by the loop of
`is_probably_binary`. -/
def suspicious_count (sample : List Nat) : Nat :=
  (sample.filter is_suspicious_byte).length

/-- Number of bytes of the sample lying in [0x7F, 0xFF] (used to state the
spec's "more than 30% of its bytes in [0x7F,0xFF]" property). -/
def high_byte_count (sample : List Nat) : Nat :=
  (sample.filter (fun b => decide (127 ≤ b ∧ b ≤ 255))).length

/-- `is_probably_binary` (source lines 105-132).  A byte sample is binary if
it contains a NUL byte, or if suspicious bytes make up more than 30% of it.
The source compares `suspicious / max(1, len(sample)) > 0.30` in IEEE-754
doubles; for the sample sizes the program produces (at most the 4096-byte
head read) that comparison coincides exactly with the rational comparison
`10 * suspicious > 3 * max 1 len`, because the two sides of the float
comparison can only be equal-or-separated by at least `1/(10*len)`, far above
double rounding error.  The in-loop early return on `b == 0` is unreachable
(the membership test on line 113 already returned), so it is not repeated. -/
def is_probably_binary (sample : List Nat) : Bool :=
  if sample = [] then false
  else if 0 ∈ sample then true
  else decide (3 * max 1 sample.length < 10 * suspicious_count sample)

/-! ## Path enumerator (source lines 135-150, `iter_files`) -/

/-- A snapshot of a directory tree.  `os.walk` sees, per directory, the list
of child directories and child files; an `Entry` list models one directory's
children in listing order. -/
inductive Entry where
  | file (name : String)
  | dir (name : String) (children : List Entry)

/-- `name.startswith('.')` on the names the walker sees. -/
def startsDot (s : String) : Bool :=
  match s.data with
  | [] => false
  | c :: _ => c == '.'

/-- The inner `for fname in filenames` loop of `iter_files` (source lines
147-150): yield `os.path.join(dirpath, fname)` for every non-hidden file of
the current directory. -/
def dirFiles (ih : Bool) (dirpath : String) (entries : List Entry) : List String :=
  entries.filterMap (fun e =>
    match e with
    | Entry.file fname =>
        if ih = false ∧ startsDot fname = true then none
        else some (dirpath ++ "/" ++ fname)
    | Entry.dir _ _ => none)

/-- The recursive descent of `os.walk` after the in-place pruning of
`dirnames` (source lines 138-145): a child directory is entered only if it
is neither hidden (unless `include_hidden`) nor in the ignore set; entering
it yields its own files first, then recurses (top-down traversal). -/
def walkDirs (ih : Bool) (ign : List String) (dirpath : String) : List Entry → List String
  | [] => []
  | Entry.file _ :: rest => walkDirs ih ign dirpath rest
  | Entry.dir d cs :: rest =>
      (if (ih = false ∧ startsDot d = true) ∨ d ∈ ign then []
       else dirFiles ih (dirpath ++ "/" ++ d) cs ++ walkDirs ih ign (dirpath ++ "/" ++ d) cs)
      ++ walkDirs ih ign dirpath rest

/-- `iter_files` (source lines 135-150): yields the root directory's own
files, then the pruned recursive traversal, exactly the order of top-down
`os.walk` on a fixed snapshot. -/
def iter_files (ih : Bool) (ign : List String) (root : String) (entries : List Entry) :
    List String :=
  dirFiles ih root entries ++ walkDirs ih ign root entries

/-! ## `os.path.splitext`, lowercasing, `safe_relpath` -/

/-- Index of the last occurrence of `c`, as Python `str.rfind` (-1 when
absent). -/
def rfind (cs : List Char) (c : Char) : Int :=
  match cs with
  | [] => -1
  | x :: xs =>
      match rfind xs c with
      | (-1 : Int) => if x == c then 0 else -1
      | i => i + 1

/-- CPython `posixpath.splitext` (via `genericpath._splitext` with `sep='/'`
and `extsep='.'`): split at the last dot, unless every character between the
start of the basename and that dot is itself a dot (so dotfiles like
`.bashrc` have no extension). -/
def splitext (p : String) : String × String :=
  let cs := p.data
  let sepIndex := rfind cs '/'
  let dotIndex := rfind cs '.'
  if sepIndex < dotIndex then
    let fnameStart := (sepIndex + 1).toNat
    if ((cs.drop fnameStart).take (dotIndex.toNat - fnameStart)).any (fun ch => ch != '.') then
      (⟨cs.take dotIndex.toNat⟩, ⟨cs.drop dotIndex.toNat⟩)
    else (p, "")
  else (p, "")

/-- Python `str.lower()` restricted to ASCII, which is all the source ever
lowercases (file extensions compared against the ASCII tables above). -/
def asciiLower (s : String) : String := ⟨s.data.map Char.toLower⟩

/-- List form of `String.startsWith`. -/
def isPre : List Char → List Char → Bool
  | [], _ => true
  | _ :: _, [] => false
  | a :: as, b :: bs => a == b && isPre as bs

/-- `safe_relpath` (source lines 153-157).  `os.path.relpath` is an OS path
primitive (an external collaborator per the spec); for the only inputs `main`
produces — paths yielded by `iter_files`, which all extend `root ++ "/"` — it
strips that leading `root ++ "/"`.  The `except` branch returning `path`
unchanged is the `else` branch. -/
def safe_relpath (path start : String) : String :=
  if isPre (start ++ "/").data path.data = true then ⟨path.data.drop (start.length + 1)⟩
  else path

/-! ## Text decoding (source lines 160-172, `read_text_file`)

The Python codecs are stdlib collaborators; they are modelled faithfully:
strict UTF-8 (rejecting overlongs, surrogates, values above U+10FFFF),
`utf-8-sig` (BOM strip then UTF-8), `latin-1` (total: byte b ↦ U+00b),
`cp1252` (the Windows-1252 table, undefined at 0x81 0x8D 0x8F 0x90 0x9D),
and UTF-8 with `errors='replace'` (total, U+FFFD for bad sequences). -/

/-- UTF-8 continuation byte test. -/
def utf8Cont (b : Nat) : Bool := 0x80 ≤ b && b ≤ 0xBF

/-- Strict UTF-8 decoding to code points. -/
def decodeUtf8Aux : List Nat → Option (List Nat)
  | [] => some []
  | b :: rest =>
    if b ≤ 0x7F then
      (decodeUtf8Aux rest).map (fun t => b :: t)
    else if 0xC2 ≤ b && b ≤ 0xDF then
      match rest with
      | c :: r =>
          if utf8Cont c then
            (decodeUtf8Aux r).map (fun t => ((b - 0xC0) * 0x40 + (c - 0x80)) :: t)
          else none
      | [] => none
    else if 0xE0 ≤ b && b ≤ 0xEF then
      match rest with
      | c :: d :: r =>
          let lo := if b = 0xE0 then 0xA0 else 0x80
          let hi := if b = 0xED then 0x9F else 0xBF
          if (lo ≤ c && c ≤ hi) && utf8Cont d then
            (decodeUtf8Aux r).map
              (fun t => ((b - 0xE0) * 0x1000 + (c - 0x80) * 0x40 + (d - 0x80)) :: t)
          else none
      | _ => none
    else if 0xF0 ≤ b && b ≤ 0xF4 then
      match rest with
      | c :: d :: e :: r =>
          let lo := if b = 0xF0 then 0x90 else 0x80
          let hi := if b = 0xF4 then 0x8F else 0xBF
          if ((lo ≤ c && c ≤ hi) && utf8Cont d) && utf8Cont e then
            (decodeUtf8Aux r).map
              (fun t =>
                ((b - 0xF0) * 0x40000 + (c - 0x80) * 0x1000 + (d - 0x80) * 0x40 + (e - 0x80)) :: t)
          else none
      | _ => none
    else none

/-- Python `bytes.decode('utf-8', errors='strict')`. -/
def decode_utf8 (bs : List Nat) : Option String :=
  (decodeUtf8Aux bs).map (fun cps => ⟨cps.map Char.ofNat⟩)

/-- Python `bytes.decode('utf-8-sig', errors='strict')`. -/
def decode_utf8_sig (bs : List Nat) : Option String :=
  decode_utf8
    (match bs with
     | 0xEF :: 0xBB :: 0xBF :: r => r
     | _ => bs)

/-- Python `bytes.decode('latin-1')`: total, byte value = code point. -/
def decode_latin1 (bs : List Nat) : String := ⟨bs.map Char.ofNat⟩

/-- The Windows-1252 mapping for one byte (`none` = decode error). -/
def cp1252Char (b : Nat) : Option Nat :=
  if b < 0x80 || b > 0x9F then some b
  else match b with
  | 0x80 => some 0x20AC
  | 0x82 => some 0x201A
  | 0x83 => some 0x0192
  | 0x84 => some 0x201E
  | 0x85 => some 0x2026
  | 0x86 => some 0x2020
  | 0x87 => some 0x2021
  | 0x88 => some 0x02C6
  | 0x89 => some 0x2030
  | 0x8A => some 0x0160
  | 0x8B => some 0x2039
  | 0x8C => some 0x0152
  | 0x8E => some 0x017D
  | 0x91 => some 0x2018
  | 0x92 => some 0x2019
  | 0x93 => some 0x201C
  | 0x94 => some 0x201D
  | 0x95 => some 0x2022
  | 0x96 => some 0x2013
  | 0x97 => some 0x2014
  | 0x98 => some 0x02DC
  | 0x99 => some 0x2122
  | 0x9A => some 0x0161
  | 0x9B => some 0x203A
  | 0x9C => some 0x0153
  | 0x9E => some 0x017E
  | 0x9F => some 0x0178
  | _ => none

/-- Python `bytes.decode('cp1252', errors='strict')`. -/
def decode_cp1252 (bs : List Nat) : Option String :=
  (bs.mapM cp1252Char).map (fun cps => ⟨cps.map Char.ofNat⟩)

/-- Python `bytes.decode('utf-8', errors='replace')`: total best-effort
decoding, emitting U+FFFD for an ill-formed sequence and resynchronising. -/
def decodeUtf8Replace : List Nat → List Nat
  | [] => []
  | b :: rest =>
    if b ≤ 0x7F then b :: decodeUtf8Replace rest
    else if 0xC2 ≤ b && b ≤ 0xDF then
      match rest with
      | c :: r =>
          if utf8Cont c then ((b - 0xC0) * 0x40 + (c - 0x80)) :: decodeUtf8Replace r
          else 0xFFFD :: decodeUtf8Replace (c :: r)
      | [] => [0xFFFD]
    else if 0xE0 ≤ b && b ≤ 0xEF then
      match rest with
      | c :: d :: r =>
          let lo := if b = 0xE0 then 0xA0 else 0x80
          let hi := if b = 0xED then 0x9F else 0xBF
          if (lo ≤ c && c ≤ hi) && utf8Cont d then
            ((b - 0xE0) * 0x1000 + (c - 0x80) * 0x40 + (d - 0x80)) :: decodeUtf8Replace r
          else 0xFFFD :: decodeUtf8Replace (c :: d :: r)
      | cs => 0xFFFD :: decodeUtf8Replace cs
    else if 0xF0 ≤ b && b ≤ 0xF4 then
      match rest with
      | c :: d :: e :: r =>
          let lo := if b = 0xF0 then 0x90 else 0x80
          let hi := if b = 0xF4 then 0x8F else 0xBF
          if ((lo ≤ c && c ≤ hi) && utf8Cont d) && utf8Cont e then
            ((b - 0xF0) * 0x40000 + (c - 0x80) * 0x1000 + (d - 0x80) * 0x40 + (e - 0x80))
              :: decodeUtf8Replace r
          else 0xFFFD :: decodeUtf8Replace (c :: d :: e :: r)
      | cs => 0xFFFD :: decodeUtf8Replace cs
    else 0xFFFD :: decodeUtf8Replace rest

/-- `errors='replace'` decoding as a string. -/
def utf8ReplaceString (bs : List Nat) : String :=
  ⟨(decodeUtf8Replace bs).map Char.ofNat⟩

/-- Universal-newline translation done by `io.open(..., 'r')` (default
`newline=None`): `\r\n` and lone `\r` become `\n`.  This is also exactly the
effect of the two sequential `str.replace` calls on source line 271. -/
def normalizeNewlinesAux : List Char → List Char
  | [] => []
  | '\r' :: '\n' :: rest => '\n' :: normalizeNewlinesAux rest
  | '\r' :: rest => '\n' :: normalizeNewlinesAux rest
  | c :: rest => c :: normalizeNewlinesAux rest

/-- String form of the newline normalization. -/
def normalize_newlines (s : String) : String := ⟨normalizeNewlinesAux s.data⟩

/-- The ordered decode attempts of `read_text_file` (source line 160:
`("utf-8", "utf-8-sig", "latin-1", "cp1252")`), each applied to the file's
bytes; `latin-1` never fails. -/
def tryDecoders (bs : List Nat) : List (Option String) :=
  [decode_utf8 bs, decode_utf8_sig bs, some (decode_latin1 bs), decode_cp1252 bs]

/-- `for enc in encodings: try ... return` — the first successful attempt. -/
def firstSome : List (Option String) → Option String
  | [] => none
  | some s :: _ => some s
  | none :: rest => firstSome rest

/-- `read_text_file` (source lines 160-172).  The file argument is the OS's
view of the file during the call: `none` when every attempt to open/read it
raises an `OSError` (the bare `except Exception` catches those too), `some
bs` when it is readable with content `bs`.  Each successful text-mode read
applies universal-newline translation.  The last resort (source lines
168-172) decodes with `errors='replace'` and can only itself fail on an
unreadable file. -/
def read_text_file (file : Option (List Nat)) : Option String :=
  match file with
  | none => none
  | some bs =>
      match firstSome (tryDecoders bs) with
      | some s => some (normalize_newlines s)
      | none => some (normalize_newlines (utf8ReplaceString bs))

/-! ## Run configuration and per-path filesystem snapshot -/

/-- The argparse namespace after the normalisation in `main` (source lines
298-330): `ignore_dirs` is the effective ignore set (user additions plus the
defaults unless disabled), `only_ext`/`skip_ext` are dot-lowercased, and
`max_file_size` is a normalised non-negative integer with 0 = unlimited. -/
structure Args where
  output : String
  include_hidden : Bool
  ignore_dirs : List String
  max_file_size : Nat
  pdf : Bool
  docx : Bool
  only_ext : List String
  skip_ext : List String

/-- What the operating system answers for one path during `process_file`:
`getsize` (`none` = `os.path.getsize` raised), `head` (`none` = the binary
`open`/`read(4096)` raised), `bytes` (`none` = every text-mode open raised),
and the payloads the optional extraction libraries would return (`none` =
library internal failure), the libraries being external collaborators. -/
structure FileData where
  getsize : Option Nat
  head : Option (List Nat)
  bytes : Option (List Nat)
  docxText : Option String
  pdfText : Option String

/-- `extract_docx_text` (source lines 175-190): `None` without the library,
otherwise the library's answer (or `None` on its internal failure). -/
def extract_docx_text (hasLib : Bool) (fd : FileData) : Option String :=
  if hasLib then fd.docxText else none

/-- `extract_pdf_text` (source lines 193-204). -/
def extract_pdf_text (hasLib : Bool) (fd : FileData) : Option String :=
  if hasLib then fd.pdfText else none

/-- `fence_for_ext` (source lines 207-211). -/
def fence_for_ext (ext : String) : String × String :=
  match List.lookup (asciiLower ext) EXT_TO_LANG with
  | some lang => ("```" ++ lang ++ "\n", "\n```\n")
  | none => ("```\n", "\n```\n")

/-- The content-selection ladder of `process_file` (source lines 246-268):
DOCX extraction, then PDF extraction, then head-read + binary sniff + text
decode; `none` stands for both the early `return None`s and a `None`
content. -/
def choose_content (ext : String) (args : Args) (hasPyMuPDF hasPythonDocx : Bool)
    (fd : FileData) : Option String :=
  let content0 : Option String :=
    if ext ∈ DOCX_EXTS ∧ args.docx = true then extract_docx_text hasPythonDocx fd else none
  let content1 : Option String :=
    if content0 = none ∧ ext ∈ PDF_EXTS ∧ args.pdf = true then extract_pdf_text hasPyMuPDF fd
    else content0
  match content1 with
  | some c => some c
  | none =>
      match fd.head with
      | none => none
      | some hd =>
          if ext ∉ PREFER_TEXT_EXTS ∧ is_probably_binary hd = true then none
          else read_text_file fd.bytes

/-- `process_file` (source lines 216-277).  Returns the rendered chunk, or
`none` for every `return None` of the source. -/
def process_file (path root : String) (args : Args) (hasPyMuPDF hasPythonDocx : Bool)
    (fd : FileData) : Option String :=
  let ext := asciiLower (splitext path).2
  if ext ∈ ALWAYS_SKIP_EXTS ∧ ¬(ext ∈ PDF_EXTS ∧ args.pdf = true ∧ hasPyMuPDF = true) then none
  else if (args.only_ext ≠ [] ∧ ext ∉ args.only_ext) ∨
          (args.skip_ext ≠ [] ∧ ext ∈ args.skip_ext) then none
  else
    let size : Int := match fd.getsize with | some n => (n : Int) | none => -1
    if args.max_file_size ≠ 0 ∧ (args.max_file_size : Int) < size then none
    else
      let rel := safe_relpath path root
      match choose_content ext args hasPyMuPDF hasPythonDocx fd with
      | none => none
      | some c =>
          let c2 := normalize_newlines c
          let header := "\n===== FILE: " ++ rel ++ " (size=" ++ toString size ++ " bytes) =====\n"
          let fences := fence_for_ext ext
          some (header ++ fences.1 ++ c2 ++ fences.2)

/-! ## Pipeline driver (source lines 280-352, `write_header` and `main`) -/

/-- Python `str(bool)`. -/
def pyBool (b : Bool) : String := if b then "True" else "False"

/-- `sorted(...)` on a collection of strings (Python sorts by code points;
`List.insertionSort` with the code-point order yields the same sorted list). -/
def sortStrings (l : List String) : List String := l.insertionSort (· ≤ ·)

/-- The part of the dedented header template of `write_header` (source lines
281-294) that precedes the timestamp: `textwrap.dedent` strips the common
4-space margin and blanks the trailing whitespace-only line. -/
def header_pre (root : String) : String :=
  "\n==============================================\n" ++
  "Repo to Text Export\n" ++
  "Root: " ++ root ++ "\n" ++
  "Generated: (local time) "

/-- The part of the header template after the timestamp. -/
def header_post (args : Args) (hasPyMuPDF hasPythonDocx : Bool) : String :=
  "\n" ++
  "Include hidden: " ++ pyBool args.include_hidden ++ "\n" ++
  "Max file size (bytes): " ++
    (if args.max_file_size ≠ 0 then toString args.max_file_size else "None") ++ "\n" ++
  "PDF extraction enabled: " ++ pyBool (args.pdf && hasPyMuPDF) ++ "\n" ++
  "DOCX extraction enabled: " ++ pyBool (args.docx && hasPythonDocx) ++ "\n" ++
  "Ignored dirs: " ++ String.intercalate ", " (sortStrings args.ignore_dirs) ++ "\n" ++
  "Only extensions: " ++
    (if args.only_ext ≠ [] then String.intercalate ", " (sortStrings args.only_ext)
     else "None") ++ "\n" ++
  "Skipped extensions: " ++
    (if args.skip_ext ≠ [] then String.intercalate ", " (sortStrings args.skip_ext)
     else "None") ++ "\n" ++
  "==============================================\n"

/-- `write_header` (source lines 280-295): the dedented metadata block with
the timestamp `ts` spliced in where the source interpolates
`datetime.now().strftime(...)`, followed by the extra `"\n"` of line 295.
`root` is already absolute (`main` line 313). -/
def write_header_str (root ts : String) (args : Args) (hasPyMuPDF hasPythonDocx : Bool) :
    String :=
  header_pre root ++ (ts ++ header_post args hasPyMuPDF hasPythonDocx)

/-- One iteration of the `for path in iter_files(...)` loop of `main`
(source lines 337-344), restricted to the counter state: `count_total`
always increments, `count_included` increments when a chunk was produced. -/
def runStep (root : String) (args : Args) (hasPyMuPDF hasPythonDocx : Bool)
    (fs : String → FileData) (c : Nat × Nat) (p : String) : Nat × Nat :=
  match process_file p root args hasPyMuPDF hasPythonDocx (fs p) with
  | some _ => (c.1 + 1, c.2 + 1)
  | none => (c.1 + 1, c.2)

/-- The counter state `(count_total, count_included)` after the `main` loop
has consumed `paths`, starting from `(0, 0)` (source lines 332-344).
`fs` is the filesystem snapshot consulted per path. -/
def runLoop (root : String) (args : Args) (hasPyMuPDF hasPythonDocx : Bool)
    (fs : String → FileData) (paths : List String) : Nat × Nat :=
  paths.foldl (runStep root args hasPyMuPDF hasPythonDocx fs) (0, 0)

/-- `chunk.endswith('\n')` (source line 342). -/
def ends_with_nl (s : String) : Bool :=
  match s.data.getLast? with
  | some c => c == '\n'
  | none => false

/-- The bytes the `main` loop appends to the output stream (source lines
337-344): each chunk, newline-terminated if it was not already. -/
def mainBody (root : String) (args : Args) (hasPyMuPDF hasPythonDocx : Bool)
    (fs : String → FileData) (paths : List String) : String :=
  paths.foldl
    (fun acc p =>
      match process_file p root args hasPyMuPDF hasPythonDocx (fs p) with
      | some chunk => acc ++ chunk ++ (if ends_with_nl chunk = true then "" else "\n")
      | none => acc) ""

/-- The trailer summary block (source lines 347-349). -/
def summary_str (c : Nat × Nat) : String :=
  "\n===== SUMMARY =====\n" ++
  "Files scanned: " ++ toString c.1 ++ "\n" ++
  "Files included: " ++ toString c.2 ++ "\n"

/-- Everything `main` writes to the output file for a given snapshot,
configuration and timestamp (source lines 335-349): header, chunks in
traversal order, summary. -/
def mainOutput (ts root : String) (args : Args) (hasPyMuPDF hasPythonDocx : Bool)
    (fs : String → FileData) (entries : List Entry) : String :=
  let paths := iter_files args.include_hidden args.ignore_dirs root entries
  write_header_str root ts args hasPyMuPDF hasPythonDocx ++ "\n" ++
    mainBody root args hasPyMuPDF hasPythonDocx fs paths ++
    summary_str (runLoop root args hasPyMuPDF hasPythonDocx fs paths)

/-! ## Concrete instances used by the witnesses -/

/-- The default configuration: no allow/deny lists, no size ceiling, no
extraction, default ignore set. -/
def argsDefault : Args :=
  { output := "repo_dump.txt", include_hidden := false,
    ignore_dirs := DEFAULT_IGNORED_DIRS, max_file_size := 0,
    pdf := false, docx := false, only_ext := [], skip_ext := [] }

/-- Configuration with `.py` in both the allow-list and the deny-list. -/
def argsBoth : Args := { argsDefault with only_ext := [".py"], skip_ext := [".py"] }

/-- Configuration with a 5-byte size ceiling. -/
def argsSmall : Args := { argsDefault with max_file_size := 5 }

/-- A healthy 2-byte ASCII text file (`"hi"`). -/
def fdText : FileData :=
  { getsize := some 2, head := some [104, 105], bytes := some [104, 105],
    docxText := none, pdfText := none }

/-- A 10-byte text file (its content decodes fine). -/
def fdBig : FileData :=
  { getsize := some 10, head := some [104], bytes := some [104],
    docxText := none, pdfText := none }

/-- A path whose `os.path.getsize` raised, but which is otherwise readable. -/
def fdSizeErr : FileData :=
  { getsize := none, head := some [104, 105], bytes := some [104, 105],
    docxText := none, pdfText := none }

/-- A path on which every read raises (e.g. permission denied). -/
def fdUnreadable : FileData :=
  { getsize := some 3, head := none, bytes := none,
    docxText := none, pdfText := none }

/-! ## Helper lemmas -/

/-- Every byte at or above 0x7F is counted as suspicious by the sniffer
loop. -/
theorem is_suspicious_byte_of_high (b : Nat) (hb : 127 ≤ b) :
    is_suspicious_byte b = true := by
  have h1 : ¬(32 ≤ b ∧ b ≤ 126) := by omega
  have h2 : b ∉ text_whitelist := by
    simp only [text_whitelist, List.mem_cons, List.not_mem_nil, or_false]
    omega
  simp [is_suspicious_byte, h1, h2]

/-- `latin-1` never fails, so the decode-attempt ladder always succeeds on a
readable file. -/
theorem firstSome_tryDecoders_isSome (bs : List Nat) :
    (firstSome (tryDecoders bs)).isSome = true := by
  simp only [tryDecoders]
  cases h1 : decode_utf8 bs with
  | some s => simp [firstSome]
  | none =>
      cases h2 : decode_utf8_sig bs with
      | some s => simp [firstSome]
      | none => simp [firstSome]

/-- A readable file always decodes to some text. -/
theorem read_text_file_some_isSome (bs : List Nat) :
    (read_text_file (some bs)).isSome = true := by
  simp only [read_text_file]
  cases h : firstSome (tryDecoders bs) <;> simp

/-- The prefer-text and always-skip extension tables are disjoint. -/
theorem prefer_text_not_always_skip :
    ∀ e ∈ PREFER_TEXT_EXTS, e ∉ ALWAYS_SKIP_EXTS := by decide

/-- String append is associative. -/
theorem str_append_assoc (a b c : String) : a ++ b ++ c = a ++ (b ++ c) := by
  cases a with | mk da =>
  cases b with | mk db =>
  cases c with | mk dc =>
  show String.mk (da ++ db ++ dc) = String.mk (da ++ (db ++ dc))
  rw [List.append_assoc]

/-! ## C4: any zero byte forces the binary verdict -/

/-- C4: for every byte sample that contains at least one zero byte,
`is_probably_binary` returns `true`, regardless of the other bytes in the
sample. -/
theorem zero_byte_is_binary (sample : List Nat) (h : 0 ∈ sample) :
    is_probably_binary sample = true := by
  unfold is_probably_binary
  rw [if_neg (List.ne_nil_of_mem h), if_pos h]

/-- Witness for C4 at the concrete sample `[65, 0, 66]`. -/
theorem zero_byte_is_binary_witness :
    (0 ∈ ([65, 0, 66] : List Nat)) ∧ is_probably_binary [65, 0, 66] = true :=
  ⟨by decide, zero_byte_is_binary [65, 0, 66] (by decide)⟩

/-! ## C10: `read_text_file` fails only on unreadable files -/

/-- C10: `read_text_file` returns `none` exactly when every attempt to open
or read the file raised an OS-level error; on a readable file the `latin-1`
attempt (third in the candidate list) decodes every byte sequence, so some
string is always returned and the best-effort fallback is never reached via
a decode failure. -/
theorem read_text_file_none_iff (file : Option (List Nat)) :
    read_text_file file = none ↔ file = none := by
  cases file with
  | none => simp [read_text_file]
  | some bs =>
      constructor
      · intro h
        have := read_text_file_some_isSome bs
        rw [h] at this
        simp at this
      · intro h
        exact absurd h (by simp)

/-! ## C5: the 30% suspicious-byte threshold -/

/-- C5: on a non-empty sample free of zero bytes, the sniffer answers
binary exactly when suspicious bytes (not printable ASCII 0x20-0x7E and not
in the whitelist tab/newline/CR/form-feed/backspace) exceed 30% of the
sample length; in particular a sample with more than 30% of its bytes in
[0x7F, 0xFF] is classified binary. -/
theorem binary_iff_suspicious_ratio (sample : List Nat)
    (hne : sample ≠ []) (hz : 0 ∉ sample) :
    (is_probably_binary sample = true ↔
      (30 : ℚ) / 100 * sample.length < (suspicious_count sample : ℚ))
    ∧ ((30 : ℚ) / 100 * sample.length < (high_byte_count sample : ℚ) →
      is_probably_binary sample = true) := by
  have hlen : 1 ≤ sample.length := List.length_pos.mpr hne
  have hmax : max 1 sample.length = sample.length := Nat.max_eq_right hlen
  have key : ∀ c : Nat,
      ((30 : ℚ) / 100 * sample.length < (c : ℚ)) ↔ 3 * sample.length < 10 * c := by
    intro c
    rw [show (30 : ℚ) / 100 = 3 / 10 by norm_num, div_mul_eq_mul_div,
      div_lt_iff₀ (by norm_num : (0 : ℚ) < 10)]
    constructor
    · intro h
      have h' : 3 * sample.length < c * 10 := by exact_mod_cast h
      omega
    · intro h
      have h' : 3 * sample.length < c * 10 := by omega
      exact_mod_cast h'
  have hbin : is_probably_binary sample =
      decide (3 * max 1 sample.length < 10 * suspicious_count sample) := by
    unfold is_probably_binary
    rw [if_neg hne, if_neg hz]
  constructor
  · rw [hbin, hmax, decide_eq_true_eq]
    exact (key (suspicious_count sample)).symm
  · intro h
    have hhi : 3 * sample.length < 10 * high_byte_count sample :=
      (key (high_byte_count sample)).mp h
    have hmono : high_byte_count sample ≤ suspicious_count sample := by
      unfold high_byte_count suspicious_count
      exact (List.monotone_filter_right sample
        (fun b hb => is_suspicious_byte_of_high b (by
          simp only [decide_eq_true_eq] at hb
          exact hb.1))).length_le
    rw [hbin, hmax, decide_eq_true_eq]
    omega

/-- Witness for C5 at the sample `[200, 200, 65]` (two of three bytes in
[0x7F, 0xFF]). -/
theorem binary_iff_suspicious_ratio_witness :
    is_probably_binary [200, 200, 65] = true := by
  have h := binary_iff_suspicious_ratio [200, 200, 65] (by decide) (by decide)
  apply h.2
  have hc : high_byte_count [200, 200, 65] = 2 := by decide
  rw [hc]
  norm_num

/-! ## C2: an extension in both lists is excluded -/

/-- C2: for every file path whose extension is present in both the
configured allow-list (`only-ext`) and the configured deny-list
(`skip-ext`), `process_file` returns no text: the deny-list clause fires
and the file is excluded. -/
theorem both_lists_excluded (path root : String) (args : Args) (hP hD : Bool)
    (fd : FileData)
    (_h1 : asciiLower (splitext path).2 ∈ args.only_ext)
    (h2 : asciiLower (splitext path).2 ∈ args.skip_ext) :
    process_file path root args hP hD fd = none := by
  simp only [process_file]
  by_cases hc : asciiLower (splitext path).2 ∈ ALWAYS_SKIP_EXTS ∧
      ¬(asciiLower (splitext path).2 ∈ PDF_EXTS ∧ args.pdf = true ∧ hP = true)
  · rw [if_pos hc]
  · rw [if_neg hc, if_pos (Or.inr ⟨List.ne_nil_of_mem h2, h2⟩)]

/-- Witness for C2: `.py` placed in both lists. -/
theorem both_lists_excluded_witness :
    (asciiLower (splitext "p/m.py").2 ∈ argsBoth.only_ext) ∧
    (asciiLower (splitext "p/m.py").2 ∈ argsBoth.skip_ext) ∧
    process_file "p/m.py" "p" argsBoth false false fdText = none :=
  ⟨by decide, by decide,
    both_lists_excluded "p/m.py" "p" argsBoth false false fdText (by decide) (by decide)⟩

/-! ## C7: ignored directories are pruned before descent -/

/-- The pruned descent distributes over sibling concatenation. -/
theorem walkDirs_append (ih : Bool) (ign : List String) (p : String) (as bs : List Entry) :
    walkDirs ih ign p (as ++ bs) = walkDirs ih ign p as ++ walkDirs ih ign p bs := by
  induction as with
  | nil => simp [walkDirs]
  | cons e rest ihr =>
      cases e with
      | file n => simpa [walkDirs] using ihr
      | dir d cs => simp [walkDirs, ihr, List.append_assoc]

/-- C7: a directory entry whose name is in the effective ignore set is
pruned before the traversal descends: the enumeration of a snapshot
containing it (with arbitrary children) is identical to the enumeration of
the same snapshot with the whole directory removed, so no file under it is
ever yielded and none of them is counted as scanned. -/
theorem ignored_dir_pruned (ih : Bool) (ign : List String) (root d : String)
    (cs : List Entry) (pre post : List Entry) (h : d ∈ ign) :
    iter_files ih ign root (pre ++ Entry.dir d cs :: post) =
      iter_files ih ign root (pre ++ post) := by
  unfold iter_files
  have h1 : walkDirs ih ign root (Entry.dir d cs :: post) = walkDirs ih ign root post := by
    rw [walkDirs, if_pos (Or.inr h)]
    simp
  have h2 : dirFiles ih root (pre ++ Entry.dir d cs :: post) =
      dirFiles ih root (pre ++ post) := by
    simp [dirFiles, List.filterMap_append, List.filterMap_cons]
  rw [walkDirs_append, walkDirs_append, h1, h2]

/-- Witness for C7: a `node_modules` directory (ignored under the default
configuration) containing one file contributes nothing to the enumeration. -/
theorem ignored_dir_pruned_witness :
    ("node_modules" ∈ DEFAULT_IGNORED_DIRS) ∧
    iter_files false DEFAULT_IGNORED_DIRS "r"
        (Entry.dir "node_modules" [Entry.file "x.txt"] :: [Entry.file "a.py"]) =
      iter_files false DEFAULT_IGNORED_DIRS "r" [Entry.file "a.py"] :=
  ⟨by decide,
    ignored_dir_pruned false DEFAULT_IGNORED_DIRS "r" "node_modules"
      [Entry.file "x.txt"] [] [Entry.file "a.py"] (by decide)⟩

/-! ## C3: counter invariants of the main loop -/

/-- Folding the loop body from any counter state: the scanned counter grows
by exactly the number of consumed paths, and `included ≤ scanned` is
preserved. -/
theorem runLoop_state (root : String) (args : Args) (hP hD : Bool)
    (fs : String → FileData) :
    ∀ (l : List String) (a b : Nat),
      (l.foldl (runStep root args hP hD fs) (a, b)).1 = a + l.length ∧
      (b ≤ a → (l.foldl (runStep root args hP hD fs) (a, b)).2 ≤
        (l.foldl (runStep root args hP hD fs) (a, b)).1) := by
  intro l
  induction l with
  | nil => intro a b; simp
  | cons p t ih =>
      intro a b
      simp only [List.foldl_cons, runStep, List.length_cons]
      rcases hpf : process_file p root args hP hD (fs p) with _ | c
      · refine ⟨?_, ?_⟩
        · rw [(ih (a + 1) b).1]; omega
        · intro hba
          exact (ih (a + 1) b).2 (by omega)
      · refine ⟨?_, ?_⟩
        · rw [(ih (a + 1) (b + 1)).1]; omega
        · intro hba
          exact (ih (a + 1) (b + 1)).2 (by omega)

/-- C3: at every point of a run (after any number `n` of enumerated paths)
the included counter is at most the scanned counter, and at completion the
scanned counter equals the number of paths the enumerator yielded for this
root and configuration. -/
theorem counters_invariant (root : String) (args : Args) (hP hD : Bool)
    (fs : String → FileData) (entries : List Entry) :
    (∀ n : Nat,
      (runLoop root args hP hD fs
        ((iter_files args.include_hidden args.ignore_dirs root entries).take n)).2 ≤
      (runLoop root args hP hD fs
        ((iter_files args.include_hidden args.ignore_dirs root entries).take n)).1) ∧
    (runLoop root args hP hD fs
        (iter_files args.include_hidden args.ignore_dirs root entries)).1 =
      (iter_files args.include_hidden args.ignore_dirs root entries).length := by
  constructor
  · intro n
    exact (runLoop_state root args hP hD fs
      ((iter_files args.include_hidden args.ignore_dirs root entries).take n) 0 0).2
      (le_refl 0)
  · simpa using (runLoop_state root args hP hD fs
      (iter_files args.include_hidden args.ignore_dirs root entries) 0 0).1

/-! ## Inclusion machinery shared by C1 and C6 -/

/-- The content ladder produces text whenever the head read succeeds, the
sniff does not fire (prefer-text extension or non-binary head), and the file
is readable: whichever extraction branch applies, some content survives. -/
theorem choose_content_isSome (ext : String) (args : Args) (hP hD : Bool) (fd : FileData)
    (hd bs : List Nat)
    (hhead : fd.head = some hd)
    (hsniff : ext ∈ PREFER_TEXT_EXTS ∨ is_probably_binary hd = false)
    (hbytes : fd.bytes = some bs) :
    (choose_content ext args hP hD fd).isSome = true := by
  have hsniffcond : ¬(ext ∉ PREFER_TEXT_EXTS ∧ is_probably_binary hd = true) := by
    rintro ⟨hnot, hbin⟩
    rcases hsniff with h | h
    · exact hnot h
    · rw [h] at hbin; exact Bool.false_ne_true hbin
  simp only [choose_content]
  split
  · simp
  · rw [hhead]
    simp only []
    rw [if_neg hsniffcond, hbytes]
    exact read_text_file_some_isSome bs

/-- A file that passes every filter of `process_file` — not an always-skip
extension, not excluded by the allow/deny lists, within the size ceiling,
head readable, not sniffed as binary, content readable — is rendered. -/
theorem process_file_isSome_of_filters (path root : String) (args : Args) (hP hD : Bool)
    (fd : FileData) (s : Nat) (hd bs : List Nat)
    (hA : asciiLower (splitext path).2 ∉ ALWAYS_SKIP_EXTS)
    (honly : args.only_ext = [] ∨ asciiLower (splitext path).2 ∈ args.only_ext)
    (hskip : asciiLower (splitext path).2 ∉ args.skip_ext)
    (hsize : fd.getsize = some s)
    (hceil : args.max_file_size = 0 ∨ s ≤ args.max_file_size)
    (hhead : fd.head = some hd)
    (hsniff : asciiLower (splitext path).2 ∈ PREFER_TEXT_EXTS ∨
      is_probably_binary hd = false)
    (hbytes : fd.bytes = some bs) :
    (process_file path root args hP hD fd).isSome = true := by
  have hc1 : ¬(asciiLower (splitext path).2 ∈ ALWAYS_SKIP_EXTS ∧
      ¬(asciiLower (splitext path).2 ∈ PDF_EXTS ∧ args.pdf = true ∧ hP = true)) :=
    fun hc => hA hc.1
  have hc2 : ¬((args.only_ext ≠ [] ∧ asciiLower (splitext path).2 ∉ args.only_ext) ∨
      (args.skip_ext ≠ [] ∧ asciiLower (splitext path).2 ∈ args.skip_ext)) := by
    rintro (⟨hne, hnotin⟩ | ⟨_, hin⟩)
    · rcases honly with h | h
      · exact hne h
      · exact hnotin h
    · exact hskip hin
  have hc3 : ¬(args.max_file_size ≠ 0 ∧ (args.max_file_size : Int) < (s : Int)) := by
    rintro ⟨hnz, hlt⟩
    rcases hceil with h | h
    · exact hnz h
    · have : (s : Int) ≤ (args.max_file_size : Int) := by exact_mod_cast h
      omega
  simp only [process_file, hsize]
  rw [if_neg hc1, if_neg hc2, if_neg hc3]
  have hcc := choose_content_isSome (asciiLower (splitext path).2) args hP hD fd hd bs
    hhead hsniff hbytes
  cases h : choose_content (asciiLower (splitext path).2) args hP hD fd with
  | none => rw [h] at hcc; simp at hcc
  | some c => simp [h]

/-! ## C1: prefer-text extensions are included -/

/-- C1: every file whose lowercase extension is in the prefer-text set,
whose size does not exceed the configured ceiling, and which the allow-list
and deny-list both let through, is rendered by `process_file` (provided the
OS lets the file be read: a size, a head sample and the content are
obtainable — read failures are the subject of C8). -/
theorem prefer_text_included (path root : String) (args : Args) (hP hD : Bool)
    (fd : FileData) (s : Nat) (hd bs : List Nat)
    (hext : asciiLower (splitext path).2 ∈ PREFER_TEXT_EXTS)
    (honly : args.only_ext = [] ∨ asciiLower (splitext path).2 ∈ args.only_ext)
    (hskip : asciiLower (splitext path).2 ∉ args.skip_ext)
    (hsize : fd.getsize = some s)
    (hceil : args.max_file_size = 0 ∨ s ≤ args.max_file_size)
    (hhead : fd.head = some hd)
    (hbytes : fd.bytes = some bs) :
    (process_file path root args hP hD fd).isSome = true :=
  process_file_isSome_of_filters path root args hP hD fd s hd bs
    (prefer_text_not_always_skip _ hext) honly hskip hsize hceil hhead
    (Or.inl hext) hbytes

/-- Witness for C1: a healthy `.py` file under the default configuration. -/
theorem prefer_text_included_witness :
    (asciiLower (splitext "proj/main.py").2 ∈ PREFER_TEXT_EXTS) ∧
    (process_file "proj/main.py" "proj" argsDefault false false fdText).isSome = true :=
  ⟨by decide,
    prefer_text_included "proj/main.py" "proj" argsDefault false false fdText
      2 [104, 105] [104, 105] (by decide) (Or.inl rfl) (by decide) rfl (Or.inl rfl)
      rfl rfl⟩

/-! ## C6: the size ceiling -/

/-- C6: a file whose reported size strictly exceeds a nonzero configured
ceiling is excluded by `process_file`; the same file with the ceiling set to
0 (unlimited) is included whenever it passes all the other filters. -/
theorem size_ceiling_excludes (path root : String) (args : Args) (hP hD : Bool)
    (fd : FileData) (s : Nat) (hd bs : List Nat)
    (hA : asciiLower (splitext path).2 ∉ ALWAYS_SKIP_EXTS)
    (honly : args.only_ext = [] ∨ asciiLower (splitext path).2 ∈ args.only_ext)
    (hskip : asciiLower (splitext path).2 ∉ args.skip_ext)
    (hsize : fd.getsize = some s)
    (hhead : fd.head = some hd)
    (hsniff : asciiLower (splitext path).2 ∈ PREFER_TEXT_EXTS ∨
      is_probably_binary hd = false)
    (hbytes : fd.bytes = some bs) :
    (args.max_file_size ≠ 0 → args.max_file_size < s →
      process_file path root args hP hD fd = none) ∧
    (process_file path root { args with max_file_size := 0 } hP hD fd).isSome = true := by
  constructor
  · intro hnz hgt
    simp only [process_file, hsize]
    split_ifs with h1 h2 h3
    · rfl
    · rfl
    · rfl
    · exact absurd ⟨hnz, by exact_mod_cast hgt⟩ h3
  · exact process_file_isSome_of_filters path root { args with max_file_size := 0 }
      hP hD fd s hd bs hA honly hskip hsize (Or.inl rfl) hhead hsniff hbytes

/-- Witness for C6: a 10-byte `.py` file against a 5-byte ceiling, then
against ceiling 0. -/
theorem size_ceiling_excludes_witness :
    process_file "p/m.py" "p" argsSmall false false fdBig = none ∧
    (process_file "p/m.py" "p" { argsSmall with max_file_size := 0 }
      false false fdBig).isSome = true := by
  have h := size_ceiling_excludes "p/m.py" "p" argsSmall false false fdBig 10 [104] [104]
    (by decide) (Or.inl rfl) (by decide) rfl rfl (Or.inl (by decide)) rfl
  exact ⟨h.1 (by decide) (by decide), h.2⟩

/-! ## C8: per-file filesystem errors (corrected)

The claim lists "unreadable size" among the errors that make `process_file`
return no text.  The source catches the `os.path.getsize` exception but then
*continues* with `size = -1` (lines 235-238): if the file is otherwise
readable it is still rendered (with `size=-1` in its header), refuting the
claim.  Errors on the head read or on the content reads do yield no text. -/

/-- Counterexample for C8 as stated: on a path whose `os.path.getsize`
raised (a per-file filesystem error) but which is otherwise readable,
`process_file` returns a chunk, not "no text". -/
theorem getsize_error_file_still_included :
    fdSizeErr.getsize = none ∧
    (process_file "r/a.txt" "r" argsDefault false false fdSizeErr).isSome = true :=
  ⟨rfl, by rfl⟩

/-- C8 amended: for a file not routed to document extraction, a failed head
read or content-read failure on every attempt makes `process_file` return
no text rather than propagate; a failed size read alone is caught, recorded
as size -1, and does not by itself exclude the file. -/
theorem fs_read_errors_return_no_text (path root : String) (args : Args) (hP hD : Bool)
    (fd : FileData)
    (hdocx : ¬(asciiLower (splitext path).2 ∈ DOCX_EXTS ∧ args.docx = true))
    (hpdf : ¬(asciiLower (splitext path).2 ∈ PDF_EXTS ∧ args.pdf = true))
    (herr : fd.head = none ∨ fd.bytes = none) :
    process_file path root args hP hD fd = none := by
  have hcc : choose_content (asciiLower (splitext path).2) args hP hD fd = none := by
    simp only [choose_content]
    rw [if_neg hdocx]
    rw [if_neg (fun hc => hpdf ⟨hc.2.1, hc.2.2⟩)]
    rcases herr with hh | hb
    · rw [hh]
    · cases hhd : fd.head with
      | none => rfl
      | some hd =>
          simp only []
          split_ifs
          · rfl
          · rw [hb]; rfl
  simp only [process_file]
  split_ifs with h1 h2 h3
  · rfl
  · rfl
  · rfl
  · rw [hcc]

/-- Witness for the amended C8: a `.py` file on which both the head read and
every content read raise. -/
theorem fs_read_errors_return_no_text_witness :
    process_file "p/m.py" "p" argsDefault false false fdUnreadable = none :=
  fs_read_errors_return_no_text "p/m.py" "p" argsDefault false false fdUnreadable
    (by decide) (by decide) (Or.inl rfl)

/-! ## C9: two-run determinism modulo the timestamp -/

/-- C9: for a fixed filesystem snapshot and configuration, two runs of the
pipeline differ only in the timestamp spliced into the metadata header: the
whole output factors as `pre ++ timestamp ++ post` with `pre` and `post`
independent of the timestamp. -/
theorem output_identical_mod_timestamp (ts1 ts2 root : String) (args : Args)
    (hP hD : Bool) (fs : String → FileData) (entries : List Entry) :
    ∃ pre post : String,
      mainOutput ts1 root args hP hD fs entries = pre ++ ts1 ++ post ∧
      mainOutput ts2 root args hP hD fs entries = pre ++ ts2 ++ post := by
  refine ⟨header_pre root,
    header_post args hP hD ++ "\n" ++
      mainBody root args hP hD fs
        (iter_files args.include_hidden args.ignore_dirs root entries) ++
      summary_str (runLoop root args hP hD fs
        (iter_files args.include_hidden args.ignore_dirs root entries)),
    ?_, ?_⟩ <;>
    simp only [mainOutput, write_header_str, str_append_assoc]

end RepoToText
